import Mathlib

/-!
The Z80 instruction core of termboy-go (`z80.go`).

A shallow embedding of `z80.go`.  Go's `byte` and `Word` (`uint16`) values are
natural numbers; every arithmetic operation that can overflow in Go carries an
explicit `% 256` or `% 65536`.  A pointer `*byte` into the register file is a
selector `Reg`; reads and writes through the pointer go through
`Registers.get` and `Registers.set`, so that aliasing (`AddA_r(&cpu.R.A)`)
behaves as in the source.  `log.Println` is diagnostic output and is not part
of the state; `log.Fatalf` ends the process and is `none`.
-/

namespace Termboy

/-! ## Data model -/

/-- The register file `Registers` (eight `byte` fields). -/
structure Registers where
  A : Nat
  B : Nat
  C : Nat
  D : Nat
  E : Nat
  H : Nat
  L : Nat
  F : Nat
  deriving DecidableEq, Repr

/-- The cycle counter pair `Clock` (two `Word` fields). -/
structure Clock where
  m : Nat
  t : Nat
  deriving DecidableEq, Repr

/-- `func (c *Clock) Set(m, t Word)`. -/
def Clock.Set (_c : Clock) (m t : Nat) : Clock :=
  { m := m, t := t }

/-- `func (c *Clock) Reset()`. -/
def Clock.Reset (_c : Clock) : Clock :=
  { m := 0, t := 0 }

/-- Modelled from the spec: the memory device `MMU`, whose declaration is not in
`z80.go`.  `mem` holds the stored contents by address and `writes` records the
`WriteByte` calls received, oldest first. -/
structure MMU where
  mem : Nat → Nat
  writes : List (Nat × Nat)

/-- Modelled from the spec: `ReadByte(address) -> 8-bit value`, a pure read that
is defined for every address. -/
def MMU.ReadByte (mmu : MMU) (addr : Nat) : Nat :=
  mmu.mem addr % 256

/-- Modelled from the spec: `WriteByte(address, value)`, a store that accepts
every address. -/
def MMU.WriteByte (mmu : MMU) (addr value : Nat) : MMU :=
  { mem := fun a => if a = addr then value else mmu.mem a
    writes := mmu.writes ++ [(addr, value)] }

/-- Modelled from the spec: `ReadWord(address) -> 16-bit value`, two consecutive
byte reads, low byte first in memory, combined as `(high << 8) | low`. -/
def MMU.ReadWord (mmu : MMU) (addr : Nat) : Nat :=
  ((mmu.ReadByte ((addr + 1) % 65536)) <<< 8) ||| mmu.ReadByte addr

/-- The processor `Z80`. -/
structure Z80 where
  PC : Nat
  SP : Nat
  R : Registers
  MachineCycles : Clock
  LastInstrCycle : Clock
  mmu : MMU

/-- A pointer to one of the `byte` fields of `cpu.R` that `Dispatch` passes to
the routines (`&cpu.R.A`, ..., `&cpu.R.L`). -/
inductive Reg where
  | A | B | C | D | E | H | L
  deriving DecidableEq, Repr

/-- Dereference `*r`. -/
def Registers.get (R : Registers) : Reg → Nat
  | .A => R.A
  | .B => R.B
  | .C => R.C
  | .D => R.D
  | .E => R.E
  | .H => R.H
  | .L => R.L

/-- Assignment `*r = v`. -/
def Registers.set (R : Registers) (r : Reg) (v : Nat) : Registers :=
  match r with
  | .A => { R with A := v }
  | .B => { R with B := v }
  | .C => { R with C := v }
  | .D => { R with D := v }
  | .E => { R with E := v }
  | .H => { R with H := v }
  | .L => { R with L := v }

/-! ## Operations -/

/-- `func (cpu *Z80) Reset()`. -/
def Reset (cpu : Z80) : Z80 :=
  { cpu with
    PC := 0
    SP := 0
    R := { A := 0, B := 0, C := 0, D := 0, E := 0, F := 0, H := 0, L := 0 }
    MachineCycles := cpu.MachineCycles.Reset
    LastInstrCycle := cpu.LastInstrCycle.Reset }

/-- `func NewCPU(m MMU) *Z80`: `new(Z80)` is the zero value. -/
def NewCPU (m : MMU) : Z80 :=
  let cpu : Z80 :=
    { PC := 0, SP := 0
      R := { A := 0, B := 0, C := 0, D := 0, E := 0, H := 0, L := 0, F := 0 }
      MachineCycles := { m := 0, t := 0 }
      LastInstrCycle := { m := 0, t := 0 }
      mmu := m }
  Reset cpu

/-- `func (cpu *Z80) ResetFlags()`. -/
def ResetFlags (cpu : Z80) : Z80 :=
  { cpu with R := { cpu.R with F := 0x00 } }

/-- `func (cpu *Z80) IncrementPC(by Word)`: `cpu.PC += by` on `uint16`. -/
def IncrementPC (cpu : Z80) (n : Nat) : Z80 :=
  { cpu with PC := (cpu.PC + n) % 65536 }

/-- `func (cpu *Z80) ToWord(hob, lob byte) Word`:
`(Word(hob) << 8) ^ Word(lob)`. -/
def ToWord (hob lob : Nat) : Nat :=
  ((hob <<< 8) % 65536) ^^^ lob

/-! ## Instruction routines -/

/-- `LD r,n`. -/
def LDrn (r : Reg) (cpu : Z80) : Z80 :=
  let value := cpu.mmu.ReadByte cpu.PC
  let cpu := IncrementPC cpu 1
  let cpu := { cpu with R := cpu.R.set r value }
  { cpu with LastInstrCycle := cpu.LastInstrCycle.Set 2 8 }

/-- `LD r,r`. -/
def LDrr (r1 r2 : Reg) (cpu : Z80) : Z80 :=
  let cpu := { cpu with R := cpu.R.set r1 (cpu.R.get r2) }
  { cpu with LastInstrCycle := cpu.LastInstrCycle.Set 1 4 }

/-- `LD r,(HL)`. -/
def LDr_hl (r : Reg) (cpu : Z80) : Z80 :=
  let HL := ToWord cpu.R.H cpu.R.L
  let value := cpu.mmu.ReadByte HL
  let cpu := { cpu with R := cpu.R.set r value }
  { cpu with LastInstrCycle := cpu.LastInstrCycle.Set 2 8 }

/-- `LD (HL),r`. -/
def LDhl_r (r : Reg) (cpu : Z80) : Z80 :=
  let HL := ToWord cpu.R.H cpu.R.L
  let value := cpu.R.get r
  let cpu := { cpu with mmu := cpu.mmu.WriteByte HL value }
  { cpu with LastInstrCycle := cpu.LastInstrCycle.Set 2 8 }

/-- `LD (BC),r`. -/
def LDbc_r (r : Reg) (cpu : Z80) : Z80 :=
  let BC := ToWord cpu.R.B cpu.R.C
  let value := cpu.R.get r
  let cpu := { cpu with mmu := cpu.mmu.WriteByte BC value }
  { cpu with LastInstrCycle := cpu.LastInstrCycle.Set 2 8 }

/-- `LD (DE),r`. -/
def LDde_r (r : Reg) (cpu : Z80) : Z80 :=
  let DE := ToWord cpu.R.D cpu.R.E
  let value := cpu.R.get r
  let cpu := { cpu with mmu := cpu.mmu.WriteByte DE value }
  { cpu with LastInstrCycle := cpu.LastInstrCycle.Set 2 8 }

/-- `LD nn,r`. -/
def LDnn_r (r : Reg) (cpu : Z80) : Z80 :=
  let resultAddr := cpu.mmu.ReadWord cpu.PC
  let cpu := IncrementPC cpu 2
  let cpu := { cpu with mmu := cpu.mmu.WriteByte resultAddr (cpu.R.get r) }
  { cpu with LastInstrCycle := cpu.LastInstrCycle.Set 4 16 }

/-- `LD (HL),n`. -/
def LDhl_n (cpu : Z80) : Z80 :=
  let HL := ToWord cpu.R.H cpu.R.L
  let value := cpu.mmu.ReadByte cpu.PC
  let cpu := IncrementPC cpu 1
  let cpu := { cpu with mmu := cpu.mmu.WriteByte HL value }
  { cpu with LastInstrCycle := cpu.LastInstrCycle.Set 3 12 }

/-- `LD r,(BC)`. -/
def LDr_bc (r : Reg) (cpu : Z80) : Z80 :=
  let BC := ToWord cpu.R.B cpu.R.C
  let value := cpu.mmu.ReadByte BC
  let cpu := { cpu with R := cpu.R.set r value }
  { cpu with LastInstrCycle := cpu.LastInstrCycle.Set 2 8 }

/-- `LD r,(DE)`. -/
def LDr_de (r : Reg) (cpu : Z80) : Z80 :=
  let DE := ToWord cpu.R.D cpu.R.E
  let value := cpu.mmu.ReadByte DE
  let cpu := { cpu with R := cpu.R.set r value }
  { cpu with LastInstrCycle := cpu.LastInstrCycle.Set 2 8 }

/-- `LD r,(nn)`. -/
def LDr_nn (r : Reg) (cpu : Z80) : Z80 :=
  let nn := cpu.mmu.ReadWord cpu.PC
  let cpu := IncrementPC cpu 2
  let value := cpu.mmu.ReadByte nn
  let cpu := { cpu with R := cpu.R.set r value }
  { cpu with LastInstrCycle := cpu.LastInstrCycle.Set 4 16 }

/-- `LD r,(C)`: the address is `0xFF00 + Word(cpu.R.C)` on `uint16`. -/
def LDr_ffplusc (r : Reg) (cpu : Z80) : Z80 :=
  let valueAddr := (0xFF00 + cpu.R.C) % 65536
  let cpu := { cpu with R := cpu.R.set r (cpu.mmu.ReadByte valueAddr) }
  { cpu with LastInstrCycle := cpu.LastInstrCycle.Set 2 8 }

/-- `LD (C),r`. -/
def LDffplusc_r (r : Reg) (cpu : Z80) : Z80 :=
  let valueAddr := (0xFF00 + cpu.R.C) % 65536
  let cpu := { cpu with mmu := cpu.mmu.WriteByte valueAddr (cpu.R.get r) }
  { cpu with LastInstrCycle := cpu.LastInstrCycle.Set 2 8 }

/-- `ADD A,r`.  The operand `*r` is read twice: once for `cpu.R.A += *r` and
once more, after that assignment, in the test `(oldA + *r) < oldA`. -/
def AddA_r (r : Reg) (cpu : Z80) : Z80 :=
  let oldA := cpu.R.A
  let cpu := { cpu with R := { cpu.R with A := (cpu.R.A + cpu.R.get r) % 256 } }
  let cpu := ResetFlags cpu
  let cpu :=
    if (oldA + cpu.R.get r) % 256 < oldA then
      { cpu with R := { cpu.R with F := cpu.R.F ^^^ 0x40 } }
    else cpu
  let cpu :=
    if cpu.R.A = 0x00 then
      { cpu with R := { cpu.R with F := cpu.R.F ^^^ 0x80 } }
    else cpu
  { cpu with LastInstrCycle := cpu.LastInstrCycle.Set 1 4 }

/-- `ADD A,(HL)`. -/
def AddA_hl (cpu : Z80) : Z80 :=
  let HL := ToWord cpu.R.H cpu.R.L
  let value := cpu.mmu.ReadByte HL
  let oldA := cpu.R.A
  let cpu := { cpu with R := { cpu.R with A := (cpu.R.A + value) % 256 } }
  let cpu := ResetFlags cpu
  let cpu :=
    if (oldA + value) % 256 < oldA then
      { cpu with R := { cpu.R with F := cpu.R.F ^^^ 0x40 } }
    else cpu
  let cpu :=
    if cpu.R.A = 0x00 then
      { cpu with R := { cpu.R with F := cpu.R.F ^^^ 0x80 } }
    else cpu
  { cpu with LastInstrCycle := cpu.LastInstrCycle.Set 2 8 }

/-- `ADD A,n`. -/
def AddA_n (cpu : Z80) : Z80 :=
  let value := cpu.mmu.ReadByte cpu.PC
  let cpu := IncrementPC cpu 1
  let oldA := cpu.R.A
  let cpu := { cpu with R := { cpu.R with A := (cpu.R.A + value) % 256 } }
  let cpu := ResetFlags cpu
  let cpu :=
    if (oldA + value) % 256 < oldA then
      { cpu with R := { cpu.R with F := cpu.R.F ^^^ 0x40 } }
    else cpu
  let cpu :=
    if cpu.R.A = 0x00 then
      { cpu with R := { cpu.R with F := cpu.R.F ^^^ 0x80 } }
    else cpu
  { cpu with LastInstrCycle := cpu.LastInstrCycle.Set 2 8 }

/-! ## Decode and execute -/

/-- `func (cpu *Z80) Dispatch(Opcode byte)`: the switch, case by case in the
order of the source; the `default` branch is `log.Fatalf`. -/
def Dispatch (Opcode : Nat) (cpu : Z80) : Option Z80 :=
  match Opcode with
  | 0x3E => some (LDrn .A cpu) -- LD A, n
  | 0x06 => some (LDrn .B cpu) -- LD B,n
  | 0x0E => some (LDrn .C cpu) -- LD C,n
  | 0x16 => some (LDrn .D cpu) -- LD D,n
  | 0x1E => some (LDrn .E cpu) -- LD E,n
  | 0x26 => some (LDrn .H cpu) -- LD H,n
  | 0x2E => some (LDrn .L cpu) -- LD L,n
  | 0x7E => some (LDr_hl .A cpu) -- LD A, (HL)
  | 0x0A => some (LDr_bc .A cpu) -- LD A, (BC)
  | 0x1A => some (LDr_de .A cpu) -- LD A, (DE)
  | 0xFA => some (LDr_nn .A cpu) -- LD A, (nn)
  | 0x7F => some (LDrr .A .A cpu) -- LD A, A
  | 0x78 => some (LDrr .A .B cpu) -- LD A, B
  | 0x79 => some (LDrr .A .C cpu) -- LD A, C
  | 0x7A => some (LDrr .A .D cpu) -- LD A, D
  | 0x7B => some (LDrr .A .E cpu) -- LD A, E
  | 0x7C => some (LDrr .A .H cpu) -- LD A, H
  | 0x7D => some (LDrr .A .L cpu) -- LD A, L
  | 0x47 => some (LDrr .B .A cpu) -- LD B, A
  | 0x40 => some (LDrr .B .B cpu) -- LD B, B
  | 0x41 => some (LDrr .B .C cpu) -- LD B, C
  | 0x42 => some (LDrr .B .D cpu) -- LD B, D
  | 0x43 => some (LDrr .B .E cpu) -- LD B, E
  | 0x44 => some (LDrr .B .H cpu) -- LD B, H
  | 0x45 => some (LDrr .B .L cpu) -- LD B, L
  | 0x46 => some (LDr_hl .B cpu) -- LD B, (HL)
  | 0x4F => some (LDrr .C .A cpu) -- LD C, A
  | 0x48 => some (LDrr .C .B cpu) -- LD C, B
  | 0x49 => some (LDrr .C .C cpu) -- LD C, C
  | 0x4A => some (LDrr .C .D cpu) -- LD C, D
  | 0x4B => some (LDrr .C .E cpu) -- LD C, E
  | 0x4C => some (LDrr .C .H cpu) -- LD C, H
  | 0x4D => some (LDrr .C .L cpu) -- LD C, L
  | 0x4E => some (LDr_hl .C cpu) -- LD C, (HL)
  | 0x57 => some (LDrr .D .A cpu) -- LD D, A
  | 0x50 => some (LDrr .D .B cpu) -- LD D, B
  | 0x51 => some (LDrr .D .C cpu) -- LD D, C
  | 0x52 => some (LDrr .D .D cpu) -- LD D, D
  | 0x53 => some (LDrr .D .E cpu) -- LD D, E
  | 0x54 => some (LDrr .D .H cpu) -- LD D, H
  | 0x55 => some (LDrr .D .L cpu) -- LD D, L
  | 0x56 => some (LDr_hl .D cpu) -- LD D, (HL)
  | 0x5F => some (LDrr .E .A cpu) -- LD E, A
  | 0x58 => some (LDrr .E .B cpu) -- LD E, B
  | 0x59 => some (LDrr .E .C cpu) -- LD E, C
  | 0x5A => some (LDrr .E .D cpu) -- LD E, D
  | 0x5B => some (LDrr .E .E cpu) -- LD E, E
  | 0x5C => some (LDrr .E .H cpu) -- LD E, H
  | 0x5D => some (LDrr .E .L cpu) -- LD E, L
  | 0x5E => some (LDr_hl .E cpu) -- LD E, (HL)
  | 0x67 => some (LDrr .H .A cpu) -- LD H, A
  | 0x60 => some (LDrr .H .B cpu) -- LD H, B
  | 0x61 => some (LDrr .H .C cpu) -- LD H, C
  | 0x62 => some (LDrr .H .D cpu) -- LD H, D
  | 0x63 => some (LDrr .H .E cpu) -- LD H, E
  | 0x64 => some (LDrr .H .H cpu) -- LD H, H
  | 0x65 => some (LDrr .H .L cpu) -- LD H, L
  | 0x66 => some (LDr_hl .H cpu) -- LD H, (HL)
  | 0x6F => some (LDrr .L .A cpu) -- LD L, A
  | 0x68 => some (LDrr .L .B cpu) -- LD L, B
  | 0x69 => some (LDrr .L .C cpu) -- LD L, C
  | 0x6A => some (LDrr .L .D cpu) -- LD L, D
  | 0x6B => some (LDrr .L .E cpu) -- LD L, E
  | 0x6C => some (LDrr .L .H cpu) -- LD L, H
  | 0x6D => some (LDrr .L .L cpu) -- LD L, L
  | 0x6E => some (LDr_hl .L cpu) -- LD L, (HL)
  | 0x77 => some (LDhl_r .A cpu) -- LD (HL), A
  | 0x70 => some (LDhl_r .B cpu) -- LD (HL), B
  | 0x71 => some (LDhl_r .C cpu) -- LD (HL), C
  | 0x72 => some (LDhl_r .D cpu) -- LD (HL), D
  | 0x73 => some (LDhl_r .E cpu) -- LD (HL), E
  | 0x74 => some (LDhl_r .H cpu) -- LD (HL), H
  | 0x75 => some (LDhl_r .L cpu) -- LD (HL), L
  | 0x02 => some (LDbc_r .A cpu) -- LD (BC), A
  | 0x12 => some (LDde_r .A cpu) -- LD (DE), A
  | 0xEA => some (LDnn_r .A cpu) -- LD (nn), A
  | 0x36 => some (LDhl_n cpu) -- LD (HL), n
  | 0xF2 => some (LDr_ffplusc .A cpu) -- LD A,(C)
  | 0xE2 => some (LDffplusc_r .A cpu) -- LD (C),A
  | 0x87 => some (AddA_r .A cpu) -- ADD A, A
  | 0x80 => some (AddA_r .B cpu) -- ADD A, B
  | 0x81 => some (AddA_r .C cpu) -- ADD A, C
  | 0x82 => some (AddA_r .D cpu) -- ADD A, D
  | 0x83 => some (AddA_r .E cpu) -- ADD A, E
  | 0x84 => some (AddA_r .H cpu) -- ADD A, H
  | 0x85 => some (AddA_r .L cpu) -- ADD A, L
  | 0x86 => some (AddA_hl cpu) -- ADD A,(HL)
  | 0xC6 => some (AddA_n cpu) -- ADD A,#
  | _ => none

/-- `func (cpu *Z80) Step()`.  The two `+=` on the running total are on
`Word`. -/
def Step (cpu : Z80) : Option Z80 :=
  let Opcode := cpu.mmu.ReadByte cpu.PC
  let cpu := IncrementPC cpu 1
  match Dispatch Opcode cpu with
  | none => none
  | some cpu =>
    let cpu := { cpu with MachineCycles :=
      { cpu.MachineCycles with m := (cpu.MachineCycles.m + cpu.LastInstrCycle.m) % 65536 } }
    let cpu := { cpu with MachineCycles :=
      { cpu.MachineCycles with t := (cpu.MachineCycles.t + cpu.LastInstrCycle.t) % 65536 } }
    some { cpu with LastInstrCycle := cpu.LastInstrCycle.Reset }

/-- The case labels of the switch in `Dispatch`, in source order. -/
def mappedOpcodes : List Nat :=
  [0x3E, 0x06, 0x0E, 0x16, 0x1E, 0x26, 0x2E, 0x7E, 0x0A, 0x1A, 0xFA,
   0x7F, 0x78, 0x79, 0x7A, 0x7B, 0x7C, 0x7D, 0x47, 0x40, 0x41, 0x42,
   0x43, 0x44, 0x45, 0x46, 0x4F, 0x48, 0x49, 0x4A, 0x4B, 0x4C, 0x4D,
   0x4E, 0x57, 0x50, 0x51, 0x52, 0x53, 0x54, 0x55, 0x56, 0x5F, 0x58,
   0x59, 0x5A, 0x5B, 0x5C, 0x5D, 0x5E, 0x67, 0x60, 0x61, 0x62, 0x63,
   0x64, 0x65, 0x66, 0x6F, 0x68, 0x69, 0x6A, 0x6B, 0x6C, 0x6D, 0x6E,
   0x77, 0x70, 0x71, 0x72, 0x73, 0x74, 0x75, 0x02, 0x12, 0xEA, 0x36,
   0xF2, 0xE2, 0x87, 0x80, 0x81, 0x82, 0x83, 0x84, 0x85, 0x86, 0xC6]

/-- The case labels `0x87, 0x80, ..., 0x86, 0xC6` that `Dispatch` sends to
`AddA_r`, `AddA_hl` and `AddA_n`. -/
def addOpcodes : List Nat :=
  [0x87, 0x80, 0x81, 0x82, 0x83, 0x84, 0x85, 0x86, 0xC6]

/-- The operand of the ADD opcode `op` as the claim words it, taken in the
state `cpu` in which `Step` starts: the register for `0x80`-`0x85` and `0x87`,
the byte at address `HL` for `0x86`, the byte at `PC + 1` for `0xC6`. -/
def addOperand (op : Nat) (cpu : Z80) : Nat :=
  match op with
  | 0x80 => cpu.R.B
  | 0x81 => cpu.R.C
  | 0x82 => cpu.R.D
  | 0x83 => cpu.R.E
  | 0x84 => cpu.R.H
  | 0x85 => cpu.R.L
  | 0x86 => cpu.mmu.ReadByte (ToWord cpu.R.H cpu.R.L)
  | 0x87 => cpu.R.A
  | 0xC6 => cpu.mmu.ReadByte ((cpu.PC + 1) % 65536)
  | _ => 0

/-- A memory device holding the bytes `bs` from address 0 on, zero elsewhere,
that has received no write. -/
def memOfBytes (bs : List Nat) : MMU :=
  { mem := fun a => bs.getD a 0, writes := [] }

/-- A processor with `PC = 0`, `SP = 0`, zero clocks, the given registers and
the program bytes `bs` at address 0. -/
def cpuAt (R : Registers) (bs : List Nat) : Z80 :=
  { PC := 0, SP := 0, R := R
    MachineCycles := { m := 0, t := 0 }
    LastInstrCycle := { m := 0, t := 0 }
    mmu := memOfBytes bs }

/-- The number of immediate operand bytes of an opcode as the claim lists
them: one for LD r,n, LD (HL),n and ADD A,n, two for LD A,(nn) and LD (nn),A,
none otherwise. -/
def immediateBytes (op : Nat) : Nat :=
  if op ∈ [0x06, 0x0E, 0x16, 0x1E, 0x26, 0x2E, 0x3E, 0x36, 0xC6] then 1
  else if op ∈ [0xFA, 0xEA] then 2
  else 0

/-- The opcode bytes that the processor reference leaves undefined, as the
claim lists them. -/
def undefinedOpcodes : List Nat :=
  [0xD3, 0xDB, 0xDD, 0xE3, 0xE4, 0xEB, 0xEC, 0xED, 0xF4, 0xFC, 0xFD]

/-- Run `Step` `n` times in a row; `none` as soon as one of them takes the
fatal path. -/
def runSteps : Nat → Z80 → Option Z80
  | 0, cpu => some cpu
  | n + 1, cpu =>
    match Step cpu with
    | none => none
    | some cpu' => runSteps n cpu'

/-- The two processors agree on every field except possibly `R.F`. -/
def EqExceptF (c1 c2 : Z80) : Prop :=
  c1.PC = c2.PC ∧ c1.SP = c2.SP ∧
  c1.R.A = c2.R.A ∧ c1.R.B = c2.R.B ∧ c1.R.C = c2.R.C ∧ c1.R.D = c2.R.D ∧
  c1.R.E = c2.R.E ∧ c1.R.H = c2.R.H ∧ c1.R.L = c2.R.L ∧
  c1.MachineCycles = c2.MachineCycles ∧ c1.LastInstrCycle = c2.LastInstrCycle ∧
  c1.mmu = c2.mmu

/-- The opcodes of the register-to-register loads LD r,r' (both operands among
B, C, D, E, H, L, A). -/
def ldrrOpcodes : List Nat :=
  [0x40, 0x41, 0x42, 0x43, 0x44, 0x45, 0x47, 0x48, 0x49, 0x4A, 0x4B, 0x4C, 0x4D, 0x4F,
   0x50, 0x51, 0x52, 0x53, 0x54, 0x55, 0x57, 0x58, 0x59, 0x5A, 0x5B, 0x5C, 0x5D, 0x5F,
   0x60, 0x61, 0x62, 0x63, 0x64, 0x65, 0x67, 0x68, 0x69, 0x6A, 0x6B, 0x6C, 0x6D, 0x6F,
   0x78, 0x79, 0x7A, 0x7B, 0x7C, 0x7D, 0x7F]

/-- The fixed cost (m, t) of an opcode as the claim lists it by family:
(1, 4) for LD r,r' and ADD A,r; (2, 8) for LD r,n, LD r,(HL), LD (HL),r,
LD A,(BC), LD A,(DE), LD (BC),A, LD (DE),A, LD A,(C), LD (C),A, ADD A,(HL) and
ADD A,n; (3, 12) for LD (HL),n; (4, 16) for LD A,(nn) and LD (nn),A. -/
def opcodeCost (op : Nat) : Nat × Nat :=
  if op ∈ ldrrOpcodes ∨ op ∈ [0x80, 0x81, 0x82, 0x83, 0x84, 0x85, 0x87] then (1, 4)
  else if op ∈ [0x06, 0x0E, 0x16, 0x1E, 0x26, 0x2E, 0x3E] ∨
      op ∈ [0x46, 0x4E, 0x56, 0x5E, 0x66, 0x6E, 0x7E] ∨
      op ∈ [0x70, 0x71, 0x72, 0x73, 0x74, 0x75, 0x77] ∨
      op ∈ [0x0A, 0x1A, 0x02, 0x12, 0xF2, 0xE2, 0x86, 0xC6] then (2, 8)
  else if op = 0x36 then (3, 12)
  else if op ∈ [0xFA, 0xEA] then (4, 16)
  else (0, 0)

/-- The LD r,n opcodes with their target register, as the claim lists them. -/
def ldrnTable : List (Nat × Reg) :=
  [(0x3E, .A), (0x06, .B), (0x0E, .C), (0x16, .D), (0x1E, .E), (0x26, .H), (0x2E, .L)]

/-- The LD (HL),r opcodes with their source register, as the claim lists
them. -/
def ldhlrTable : List (Nat × Reg) :=
  [(0x70, .B), (0x71, .C), (0x72, .D), (0x73, .E), (0x74, .H), (0x75, .L), (0x77, .A)]

/-- The store opcodes as the claim lists them: 0x70-0x75, 0x77, 0x02, 0x12,
0xEA, 0x36 and 0xE2. -/
def storeOpcodes : List Nat :=
  [0x70, 0x71, 0x72, 0x73, 0x74, 0x75, 0x77, 0x02, 0x12, 0xEA, 0x36, 0xE2]

/-- An operand of the load group 0x40-0x7F: a register or the memory byte at
address HL. -/
inductive Operand where
  | reg (r : Reg)
  | atHL
  deriving DecidableEq, Repr

/-- The operand order `[B, C, D, E, H, L, (HL), A]` of the opcode encoding. -/
def operandTable : List Operand :=
  [.reg .B, .reg .C, .reg .D, .reg .E, .reg .H, .reg .L, .atHL, .reg .A]

/-- The load that the encoding of `op` stands for: destination entry
`(op >> 3) AND 7`, source entry `op AND 7` of `operandTable`, the source read in
`cpu`; a register copy, a register loaded from memory at HL, or a register
stored to memory at HL. -/
def loadByEncoding (op : Nat) (cpu : Z80) : Z80 :=
  match operandTable.getD ((op >>> 3) &&& 7) .atHL, operandTable.getD (op &&& 7) .atHL with
  | .reg d, .reg s => { cpu with R := cpu.R.set d (cpu.R.get s) }
  | .reg d, .atHL =>
    { cpu with R := cpu.R.set d (cpu.mmu.ReadByte (ToWord cpu.R.H cpu.R.L)) }
  | .atHL, .reg s =>
    { cpu with mmu := cpu.mmu.WriteByte (ToWord cpu.R.H cpu.R.L) (cpu.R.get s) }
  | .atHL, .atHL => cpu

/-! ## Stepping -/

theorem Step_of_Dispatch (cpu d : Z80)
    (h : Dispatch (cpu.mmu.ReadByte cpu.PC) (IncrementPC cpu 1) = some d) :
    Step cpu = some
      { d with
        MachineCycles :=
          { m := (d.MachineCycles.m + d.LastInstrCycle.m) % 65536
            t := (d.MachineCycles.t + d.LastInstrCycle.t) % 65536 }
        LastInstrCycle := { m := 0, t := 0 } } := by
  simp [Step, h, Clock.Reset]

theorem Step_add (cpu : Z80) (op : Nat) (hop : op ∈ addOpcodes)
    (hfetch : cpu.mmu.ReadByte cpu.PC = op) :
    ∃ d, Dispatch op (IncrementPC cpu 1) = some d ∧
      d.R.A = (cpu.R.A + addOperand op cpu) % 256 ∧
      (d.R.F = 0x00 ∨ d.R.F = 0x40 ∨ d.R.F = 0x80 ∨ d.R.F = 0xC0) ∧
      (d.R.F &&& 0x80 = 0x80 ↔ d.R.A = 0) := by
  simp only [addOpcodes, List.mem_cons, List.mem_singleton, List.not_mem_nil, or_false] at hop
  rcases hop with rfl | rfl | rfl | rfl | rfl | rfl | rfl | rfl | rfl
  all_goals
    refine ⟨_, rfl, ?_⟩
    simp only [AddA_r, AddA_hl, AddA_n, IncrementPC, ResetFlags, addOperand, Registers.get,
      Clock.Set]
    split_ifs <;> simp_all
    decide

/-! ## What every routine leaves alone

Each routine's effect on `PC`, `SP`, the running total and the per-instruction
clock. -/

theorem LDrn_frame (r : Reg) (cpu : Z80) :
    (LDrn r cpu).PC = (cpu.PC + 1) % 65536 ∧ (LDrn r cpu).SP = cpu.SP ∧
      (LDrn r cpu).MachineCycles = cpu.MachineCycles ∧
      (LDrn r cpu).LastInstrCycle = ⟨2, 8⟩ := by
  simp [LDrn, IncrementPC, Clock.Set]

theorem LDrr_frame (r1 r2 : Reg) (cpu : Z80) :
    (LDrr r1 r2 cpu).PC = cpu.PC ∧ (LDrr r1 r2 cpu).SP = cpu.SP ∧
      (LDrr r1 r2 cpu).MachineCycles = cpu.MachineCycles ∧
      (LDrr r1 r2 cpu).LastInstrCycle = ⟨1, 4⟩ := by
  simp [LDrr, IncrementPC, Clock.Set]

theorem LDr_hl_frame (r : Reg) (cpu : Z80) :
    (LDr_hl r cpu).PC = cpu.PC ∧ (LDr_hl r cpu).SP = cpu.SP ∧
      (LDr_hl r cpu).MachineCycles = cpu.MachineCycles ∧
      (LDr_hl r cpu).LastInstrCycle = ⟨2, 8⟩ := by
  simp [LDr_hl, IncrementPC, Clock.Set]

theorem LDhl_r_frame (r : Reg) (cpu : Z80) :
    (LDhl_r r cpu).PC = cpu.PC ∧ (LDhl_r r cpu).SP = cpu.SP ∧
      (LDhl_r r cpu).MachineCycles = cpu.MachineCycles ∧
      (LDhl_r r cpu).LastInstrCycle = ⟨2, 8⟩ := by
  simp [LDhl_r, IncrementPC, Clock.Set]

theorem LDbc_r_frame (r : Reg) (cpu : Z80) :
    (LDbc_r r cpu).PC = cpu.PC ∧ (LDbc_r r cpu).SP = cpu.SP ∧
      (LDbc_r r cpu).MachineCycles = cpu.MachineCycles ∧
      (LDbc_r r cpu).LastInstrCycle = ⟨2, 8⟩ := by
  simp [LDbc_r, IncrementPC, Clock.Set]

theorem LDde_r_frame (r : Reg) (cpu : Z80) :
    (LDde_r r cpu).PC = cpu.PC ∧ (LDde_r r cpu).SP = cpu.SP ∧
      (LDde_r r cpu).MachineCycles = cpu.MachineCycles ∧
      (LDde_r r cpu).LastInstrCycle = ⟨2, 8⟩ := by
  simp [LDde_r, IncrementPC, Clock.Set]

theorem LDnn_r_frame (r : Reg) (cpu : Z80) :
    (LDnn_r r cpu).PC = (cpu.PC + 2) % 65536 ∧ (LDnn_r r cpu).SP = cpu.SP ∧
      (LDnn_r r cpu).MachineCycles = cpu.MachineCycles ∧
      (LDnn_r r cpu).LastInstrCycle = ⟨4, 16⟩ := by
  simp [LDnn_r, IncrementPC, Clock.Set]

theorem LDhl_n_frame (cpu : Z80) :
    (LDhl_n cpu).PC = (cpu.PC + 1) % 65536 ∧ (LDhl_n cpu).SP = cpu.SP ∧
      (LDhl_n cpu).MachineCycles = cpu.MachineCycles ∧
      (LDhl_n cpu).LastInstrCycle = ⟨3, 12⟩ := by
  simp [LDhl_n, IncrementPC, Clock.Set]

theorem LDr_bc_frame (r : Reg) (cpu : Z80) :
    (LDr_bc r cpu).PC = cpu.PC ∧ (LDr_bc r cpu).SP = cpu.SP ∧
      (LDr_bc r cpu).MachineCycles = cpu.MachineCycles ∧
      (LDr_bc r cpu).LastInstrCycle = ⟨2, 8⟩ := by
  simp [LDr_bc, IncrementPC, Clock.Set]

theorem LDr_de_frame (r : Reg) (cpu : Z80) :
    (LDr_de r cpu).PC = cpu.PC ∧ (LDr_de r cpu).SP = cpu.SP ∧
      (LDr_de r cpu).MachineCycles = cpu.MachineCycles ∧
      (LDr_de r cpu).LastInstrCycle = ⟨2, 8⟩ := by
  simp [LDr_de, IncrementPC, Clock.Set]

theorem LDr_nn_frame (r : Reg) (cpu : Z80) :
    (LDr_nn r cpu).PC = (cpu.PC + 2) % 65536 ∧ (LDr_nn r cpu).SP = cpu.SP ∧
      (LDr_nn r cpu).MachineCycles = cpu.MachineCycles ∧
      (LDr_nn r cpu).LastInstrCycle = ⟨4, 16⟩ := by
  simp [LDr_nn, IncrementPC, Clock.Set]

theorem LDr_ffplusc_frame (r : Reg) (cpu : Z80) :
    (LDr_ffplusc r cpu).PC = cpu.PC ∧ (LDr_ffplusc r cpu).SP = cpu.SP ∧
      (LDr_ffplusc r cpu).MachineCycles = cpu.MachineCycles ∧
      (LDr_ffplusc r cpu).LastInstrCycle = ⟨2, 8⟩ := by
  simp [LDr_ffplusc, IncrementPC, Clock.Set]

theorem LDffplusc_r_frame (r : Reg) (cpu : Z80) :
    (LDffplusc_r r cpu).PC = cpu.PC ∧ (LDffplusc_r r cpu).SP = cpu.SP ∧
      (LDffplusc_r r cpu).MachineCycles = cpu.MachineCycles ∧
      (LDffplusc_r r cpu).LastInstrCycle = ⟨2, 8⟩ := by
  simp [LDffplusc_r, IncrementPC, Clock.Set]

theorem AddA_r_frame (r : Reg) (cpu : Z80) :
    (AddA_r r cpu).PC = cpu.PC ∧ (AddA_r r cpu).SP = cpu.SP ∧
      (AddA_r r cpu).MachineCycles = cpu.MachineCycles ∧
      (AddA_r r cpu).LastInstrCycle = ⟨1, 4⟩ := by
  unfold AddA_r
  simp only [IncrementPC, ResetFlags, Clock.Set]
  split_ifs <;> simp

theorem AddA_hl_frame (cpu : Z80) :
    (AddA_hl cpu).PC = cpu.PC ∧ (AddA_hl cpu).SP = cpu.SP ∧
      (AddA_hl cpu).MachineCycles = cpu.MachineCycles ∧
      (AddA_hl cpu).LastInstrCycle = ⟨2, 8⟩ := by
  unfold AddA_hl
  simp only [IncrementPC, ResetFlags, Clock.Set]
  split_ifs <;> simp

theorem AddA_n_frame (cpu : Z80) :
    (AddA_n cpu).PC = (cpu.PC + 1) % 65536 ∧ (AddA_n cpu).SP = cpu.SP ∧
      (AddA_n cpu).MachineCycles = cpu.MachineCycles ∧
      (AddA_n cpu).LastInstrCycle = ⟨2, 8⟩ := by
  unfold AddA_n
  simp only [IncrementPC, ResetFlags, Clock.Set]
  split_ifs <;> simp

/-! ## Decoding -/

theorem Dispatch_unmapped (op : Nat) (cpu : Z80) (h : op ∉ mappedOpcodes) :
    Dispatch op cpu = none := by
  by_cases hlt : op < 256
  · interval_cases op <;> first | rfl | exact absurd (by decide) h
  · obtain ⟨k, rfl⟩ : ∃ k, op = k + 256 := ⟨op - 256, by omega⟩
    rfl

theorem Dispatch_mapped (op : Nat) (cpu : Z80) (hop : op ∈ mappedOpcodes) :
    ∃ d, Dispatch op cpu = some d ∧
      d.PC = (if immediateBytes op = 0 then cpu.PC
        else (cpu.PC + immediateBytes op) % 65536) ∧
      d.SP = cpu.SP ∧ d.MachineCycles = cpu.MachineCycles ∧
      (d.LastInstrCycle = ⟨1, 4⟩ ∨ d.LastInstrCycle = ⟨2, 8⟩ ∨
        d.LastInstrCycle = ⟨3, 12⟩ ∨ d.LastInstrCycle = ⟨4, 16⟩) := by
  simp only [mappedOpcodes, List.mem_cons, List.mem_singleton, List.not_mem_nil,
    or_false] at hop
  rcases hop with
    rfl | rfl | rfl | rfl | rfl | rfl | rfl | rfl | rfl | rfl | rfl |
    rfl | rfl | rfl | rfl | rfl | rfl | rfl | rfl | rfl | rfl | rfl |
    rfl | rfl | rfl | rfl | rfl | rfl | rfl | rfl | rfl | rfl | rfl |
    rfl | rfl | rfl | rfl | rfl | rfl | rfl | rfl | rfl | rfl | rfl |
    rfl | rfl | rfl | rfl | rfl | rfl | rfl | rfl | rfl | rfl | rfl |
    rfl | rfl | rfl | rfl | rfl | rfl | rfl | rfl | rfl | rfl | rfl |
    rfl | rfl | rfl | rfl | rfl | rfl | rfl | rfl | rfl | rfl | rfl |
    rfl | rfl | rfl | rfl | rfl | rfl | rfl | rfl | rfl | rfl | rfl
  all_goals
    refine ⟨_, rfl, ?_⟩
    simp [LDrn_frame, LDrr_frame, LDr_hl_frame, LDhl_r_frame, LDbc_r_frame, LDde_r_frame, LDnn_r_frame,
      LDhl_n_frame, LDr_bc_frame, LDr_de_frame, LDr_nn_frame, LDr_ffplusc_frame, LDffplusc_r_frame,
      AddA_r_frame, AddA_hl_frame, AddA_n_frame,
      immediateBytes]

theorem Step_eq_none_iff (cpu : Z80) :
    Step cpu = none ↔ Dispatch (cpu.mmu.ReadByte cpu.PC) (IncrementPC cpu 1) = none := by
  cases hd : Dispatch (cpu.mmu.ReadByte cpu.PC) (IncrementPC cpu 1) <;> simp [Step, hd]

theorem Step_LastInstrCycle (cpu cpu' : Z80) (h : Step cpu = some cpu') :
    cpu'.LastInstrCycle = ⟨0, 0⟩ := by
  unfold Step at h
  cases hd : Dispatch (cpu.mmu.ReadByte cpu.PC) (IncrementPC cpu 1) with
  | none => simp [hd] at h
  | some d =>
    simp only [hd, Option.some.injEq] at h
    rw [← h]
    rfl

/-- A property that holds before a run and is kept by every successful `Step`
holds after the run. -/
theorem runSteps_invariant (P : Z80 → Prop)
    (hstep : ∀ c c', P c → Step c = some c' → P c') :
    ∀ (n : Nat) (c c' : Z80), P c → runSteps n c = some c' → P c' := by
  intro n
  induction n with
  | zero =>
    intro c c' hP h
    simp only [runSteps, Option.some.injEq] at h
    exact h ▸ hP
  | succ n ih =>
    intro c c' hP h
    unfold runSteps at h
    cases hs : Step c with
    | none => simp [hs] at h
    | some c1 =>
      simp only [hs] at h
      exact ih c1 c' (hstep c c1 hP hs) h

theorem Step_add_setF (cpu : Z80) (f : Nat) (op : Nat) (hop : op ∈ addOpcodes)
    (hfetch : cpu.mmu.ReadByte cpu.PC = op) :
    Step { cpu with R := { cpu.R with F := f } } = Step cpu := by
  simp only [addOpcodes, List.mem_cons, List.mem_singleton, List.not_mem_nil, or_false] at hop
  unfold Step
  simp only [hfetch]
  rcases hop with rfl | rfl | rfl | rfl | rfl | rfl | rfl | rfl | rfl <;> rfl

/-! ## Claims on the ADD opcodes -/

/-- C1: the Carry bit (bit 4, mask 0x10) of F should be set by an ADD whose
unsigned sum exceeds 0xFF.  On the two inputs of the claim, A=0xFF, B=0x01 with
opcode 0x80 and A=0x05 with bytes 0xC6 0xFB, the sum is 0x100, yet Step leaves
F = 0xC0: the routine flips mask 0x40 under its comment "set carry flag", and
bit 4 stays clear. -/
theorem C1_add_carry_lands_on_bit6 :
    (∃ cpu', Step (cpuAt { A := 0xFF, B := 0x01, C := 0, D := 0, E := 0, H := 0, L := 0, F := 0 }
        [0x80]) = some cpu' ∧
      0xFF < 0xFF + 0x01 ∧ cpu'.R.F = 0xC0 ∧ cpu'.R.F &&& 0x10 = 0) ∧
    (∃ cpu', Step (cpuAt { A := 0x05, B := 0, C := 0, D := 0, E := 0, H := 0, L := 0, F := 0 }
        [0xC6, 0xFB]) = some cpu' ∧
      0xFF < 0x05 + 0xFB ∧ cpu'.R.F = 0xC0 ∧ cpu'.R.F &&& 0x10 = 0) := by
  refine ⟨⟨_, rfl, ?_, ?_, ?_⟩, ⟨_, rfl, ?_, ?_, ?_⟩⟩ <;> decide

/-- C2: for every ADD opcode (0x80-0x87, 0xC6) and every pre-state, Step
returns, the accumulator is (old A + operand) mod 256, and bit 7 (mask 0x80,
Zero) of F is set if and only if the new accumulator is 0. -/
theorem C2_add_result_and_zero_flag (cpu : Z80) (op : Nat) (hop : op ∈ addOpcodes)
    (hfetch : cpu.mmu.ReadByte cpu.PC = op) :
    ∃ cpu', Step cpu = some cpu' ∧
      cpu'.R.A = (cpu.R.A + addOperand op cpu) % 256 ∧
      (cpu'.R.F &&& 0x80 = 0x80 ↔ cpu'.R.A = 0) := by
  obtain ⟨d, hd, hA, _, hZ⟩ := Step_add cpu op hop hfetch
  rw [← hfetch] at hd
  exact ⟨_, Step_of_Dispatch cpu d hd, hA, hZ⟩

/-- C2 at the input of the claim: A=0xFF, B=0x01, opcode 0x80 gives A=0x00
with Zero set. -/
theorem C2_add_result_and_zero_flag_witness :
    ∃ cpu', Step (cpuAt { A := 0xFF, B := 0x01, C := 0, D := 0, E := 0, H := 0, L := 0, F := 0 }
        [0x80]) = some cpu' ∧
      cpu'.R.A = (0xFF + addOperand 0x80
        (cpuAt { A := 0xFF, B := 0x01, C := 0, D := 0, E := 0, H := 0, L := 0, F := 0 }
          [0x80])) % 256 ∧
      (cpu'.R.F &&& 0x80 = 0x80 ↔ cpu'.R.A = 0) :=
  C2_add_result_and_zero_flag
    (cpuAt { A := 0xFF, B := 0x01, C := 0, D := 0, E := 0, H := 0, L := 0, F := 0 } [0x80])
    0x80 (by decide) (by decide)

/-- C3, as stated, fails: with A=0x0F, B=0x01 and opcode 0x80 the low nibbles
add up to 0x10 > 0x0F, but after Step bit 5 (mask 0x20) of F is clear. -/
theorem C3_half_carry_counterexample :
    ∃ cpu', Step (cpuAt { A := 0x0F, B := 0x01, C := 0, D := 0, E := 0, H := 0, L := 0, F := 0 }
        [0x80]) = some cpu' ∧
      ¬ (cpu'.R.F &&& 0x20 = 0x20 ↔ 0x0F < (0x0F &&& 0x0F) + (0x01 &&& 0x0F)) := by
  refine ⟨_, rfl, ?_⟩
  decide

/-- C3, amended: for every ADD opcode (0x80-0x87, 0xC6) and every pre-state,
Step returns and bit 5 (mask 0x20, Half-carry) of F is clear, whether or not
the addition carries out of bit 3. -/
theorem C3_add_half_carry_clear (cpu : Z80) (op : Nat) (hop : op ∈ addOpcodes)
    (hfetch : cpu.mmu.ReadByte cpu.PC = op) :
    ∃ cpu', Step cpu = some cpu' ∧ cpu'.R.F &&& 0x20 = 0 := by
  obtain ⟨d, hd, _, hF, _⟩ := Step_add cpu op hop hfetch
  rw [← hfetch] at hd
  refine ⟨_, Step_of_Dispatch cpu d hd, ?_⟩
  show d.R.F &&& 0x20 = 0
  rcases hF with h | h | h | h <;> rw [h] <;> decide

/-- C3 amended, at A=0x0F, B=0x01, opcode 0x80. -/
theorem C3_add_half_carry_clear_witness :
    ∃ cpu', Step (cpuAt { A := 0x0F, B := 0x01, C := 0, D := 0, E := 0, H := 0, L := 0, F := 0 }
        [0x80]) = some cpu' ∧ cpu'.R.F &&& 0x20 = 0 :=
  C3_add_half_carry_clear
    (cpuAt { A := 0x0F, B := 0x01, C := 0, D := 0, E := 0, H := 0, L := 0, F := 0 } [0x80])
    0x80 (by decide) (by decide)

/-- C4: the Subtract bit (bit 6, mask 0x40) of F should be clear after an ADD.
With A=0xFF, B=0x01 and opcode 0x80, Step leaves F = 0xC0, in which bit 6 is
set: the routine flips mask 0x40 whenever the sum wraps. -/
theorem C4_add_sets_bit6_on_wrap :
    ∃ cpu', Step (cpuAt { A := 0xFF, B := 0x01, C := 0, D := 0, E := 0, H := 0, L := 0, F := 0 }
        [0x80]) = some cpu' ∧
      cpu'.R.F = 0xC0 ∧ cpu'.R.F &&& 0x40 = 0x40 := by
  refine ⟨_, rfl, ?_, ?_⟩ <;> decide


/-! ## Claims on decoding, clocks and the program counter -/

/-- C5: for every opcode value and every pre-state, Dispatch either takes the
fatal path, which it does exactly for the values outside the 88 distinct case
labels of its switch, or returns from a routine that has set a per-instruction
cost with m >= 1; Step takes the fatal path exactly when Dispatch does. -/
theorem C5_dispatch_fatal_or_routine :
    (∀ (op : Nat) (cpu : Z80),
      (op ∉ mappedOpcodes ∧ Dispatch op cpu = none) ∨
      (op ∈ mappedOpcodes ∧ ∃ d, Dispatch op cpu = some d ∧ 1 ≤ d.LastInstrCycle.m)) ∧
    mappedOpcodes.length = 88 ∧ mappedOpcodes.Nodup ∧
    (∀ cpu : Z80,
      Step cpu = none ↔ Dispatch (cpu.mmu.ReadByte cpu.PC) (IncrementPC cpu 1) = none) := by
  refine ⟨?_, by decide, by decide, Step_eq_none_iff⟩
  intro op cpu
  by_cases hop : op ∈ mappedOpcodes
  · right
    obtain ⟨d, hd, _, _, _, hc⟩ := Dispatch_mapped op cpu hop
    refine ⟨hop, d, hd, ?_⟩
    rcases hc with h | h | h | h <;> rw [h] <;> decide
  · exact Or.inl ⟨hop, Dispatch_unmapped op cpu hop⟩

/-- C6, as stated, fails: 0x00 (NOP), 0x76 (HALT) and 0xC3 (JP nn) are bytes
below 256 outside the undefined list, yet Dispatch takes the fatal path on each
of them, and so does Step when it fetches 0x00. -/
theorem C6_defined_opcodes_take_fatal_path :
    (0x00 < 256 ∧ 0x00 ∉ undefinedOpcodes ∧ Dispatch 0x00 (cpuAt { A := 0, B := 0, C := 0, D := 0, E := 0, H := 0, L := 0, F := 0 } [0x00]) = none) ∧
    (0x76 < 256 ∧ 0x76 ∉ undefinedOpcodes ∧ Dispatch 0x76 (cpuAt { A := 0, B := 0, C := 0, D := 0, E := 0, H := 0, L := 0, F := 0 } [0x76]) = none) ∧
    (0xC3 < 256 ∧ 0xC3 ∉ undefinedOpcodes ∧ Dispatch 0xC3 (cpuAt { A := 0, B := 0, C := 0, D := 0, E := 0, H := 0, L := 0, F := 0 } [0xC3]) = none) ∧
    Step (cpuAt { A := 0, B := 0, C := 0, D := 0, E := 0, H := 0, L := 0, F := 0 } [0x00]) = none := by
  refine ⟨⟨by decide, by decide, rfl⟩, ⟨by decide, by decide, rfl⟩,
    ⟨by decide, by decide, rfl⟩, rfl⟩

set_option maxRecDepth 100000 in
/-- C6, amended: Dispatch runs a routine for exactly the 88 opcode bytes listed
in its switch, each of them a byte that the reference defines, and takes the
fatal path for every other byte; of the 245 defined bytes 157 are unmapped. -/
theorem C6_dispatch_runs_exactly_the_switch_cases :
    (∀ (op : Nat) (cpu : Z80), (∃ d, Dispatch op cpu = some d) ↔ op ∈ mappedOpcodes) ∧
    (mappedOpcodes.all fun op => decide (op < 256 ∧ op ∉ undefinedOpcodes)) = true ∧
    ((List.range 256).filter fun op => decide (op ∉ undefinedOpcodes)).length = 245 ∧
    ((List.range 256).filter fun op =>
      decide (op ∉ undefinedOpcodes ∧ op ∉ mappedOpcodes)).length = 157 := by
  refine ⟨?_, by decide, by decide, by decide⟩
  intro op cpu
  constructor
  · rintro ⟨d, hd⟩
    by_contra hop
    rw [Dispatch_unmapped op cpu hop] at hd
    exact Option.noConfusion hd
  · intro hop
    obtain ⟨d, hd, _⟩ := Dispatch_mapped op cpu hop
    exact ⟨d, hd⟩

/-- C7: for every opcode that Dispatch maps to a routine and every pre-state,
Dispatch returns and the per-instruction clock pair it leaves satisfies
t = 4 * m. -/
theorem C7_clock_ratio (op : Nat) (cpu : Z80) (hop : op ∈ mappedOpcodes) :
    ∃ d, Dispatch op cpu = some d ∧ d.LastInstrCycle.t = 4 * d.LastInstrCycle.m := by
  obtain ⟨d, hd, _, _, _, hc⟩ := Dispatch_mapped op cpu hop
  refine ⟨d, hd, ?_⟩
  rcases hc with h | h | h | h <;> simp [h]

/-- C7 at opcode 0x36 (LD (HL),n), whose cost is (3m, 12t). -/
theorem C7_clock_ratio_witness :
    0x36 ∈ mappedOpcodes ∧
    ∃ d, Dispatch 0x36 (cpuAt { A := 0, B := 0, C := 0, D := 0, E := 0, H := 0, L := 0, F := 0 } [0x36, 0x10]) = some d ∧
      d.LastInstrCycle.t = 4 * d.LastInstrCycle.m :=
  ⟨by decide, C7_clock_ratio 0x36 (cpuAt { A := 0, B := 0, C := 0, D := 0, E := 0, H := 0, L := 0, F := 0 } [0x36, 0x10]) (by decide)⟩

/-- C8: for every ADD opcode (0x80-0x87, 0xC6) and any two pre-states that
agree on everything except F, Step returns on both with the same post-state,
F included. -/
theorem C8_add_overwrites_flags (c1 c2 : Z80) (op : Nat) (hop : op ∈ addOpcodes)
    (hfetch : c1.mmu.ReadByte c1.PC = op) (heq : EqExceptF c1 c2) :
    ∃ d, Step c1 = some d ∧ Step c2 = some d := by
  obtain ⟨d, hd, _⟩ := Step_add c1 op hop hfetch
  rw [← hfetch] at hd
  refine ⟨_, Step_of_Dispatch c1 d hd, ?_⟩
  rw [← Step_of_Dispatch c1 d hd, ← Step_add_setF c1 c2.R.F op hop hfetch]
  obtain ⟨PC1, SP1, ⟨A1, B1, C1, D1, E1, H1, L1, F1⟩, MC1, LC1, mmu1⟩ := c1
  obtain ⟨PC2, SP2, ⟨A2, B2, C2, D2, E2, H2, L2, F2⟩, MC2, LC2, mmu2⟩ := c2
  simp only [EqExceptF] at heq
  obtain ⟨rfl, rfl, rfl, rfl, rfl, rfl, rfl, rfl, rfl, rfl, rfl, rfl⟩ := heq
  rfl

/-- C8 at A=0xFF, B=0x01, opcode 0x80, with F = 0x00 in one pre-state and
F = 0xFF in the other. -/
theorem C8_add_overwrites_flags_witness :
    0x80 ∈ addOpcodes ∧
    EqExceptF
      (cpuAt { A := 0xFF, B := 0x01, C := 0, D := 0, E := 0, H := 0, L := 0, F := 0x00 } [0x80])
      (cpuAt { A := 0xFF, B := 0x01, C := 0, D := 0, E := 0, H := 0, L := 0, F := 0xFF } [0x80]) ∧
    ∃ d,
      Step (cpuAt { A := 0xFF, B := 0x01, C := 0, D := 0, E := 0, H := 0, L := 0, F := 0x00 }
        [0x80]) = some d ∧
      Step (cpuAt { A := 0xFF, B := 0x01, C := 0, D := 0, E := 0, H := 0, L := 0, F := 0xFF }
        [0x80]) = some d :=
  ⟨by decide, by simp [EqExceptF, cpuAt],
    C8_add_overwrites_flags _ _ 0x80 (by decide) (by decide) (by simp [EqExceptF, cpuAt])⟩

/-- C9: for every mapped opcode and every pre-state, Step returns with
PC = (old PC + 1 + k) mod 65536, k being the number of immediate operand bytes
of the opcode (1 for 0x06, 0x0E, 0x16, 0x1E, 0x26, 0x2E, 0x3E, 0x36, 0xC6; 2 for
0xFA and 0xEA; 0 otherwise), whatever the operands, registers and memory. -/
theorem C9_pc_advance (cpu : Z80) (op : Nat) (hop : op ∈ mappedOpcodes)
    (hfetch : cpu.mmu.ReadByte cpu.PC = op) :
    ∃ cpu', Step cpu = some cpu' ∧
      cpu'.PC = (cpu.PC + 1 + immediateBytes op) % 65536 := by
  obtain ⟨d, hd, hPC, _⟩ := Dispatch_mapped op (IncrementPC cpu 1) hop
  rw [← hfetch] at hd
  refine ⟨_, Step_of_Dispatch cpu d hd, ?_⟩
  show d.PC = _
  rw [hPC]
  simp only [IncrementPC]
  split_ifs with hk
  · rw [hk]
  · omega

/-- C9 at the top of the address space: PC = 0xFFFF holding 0x3E (LD A,n)
steps to PC = 1. -/
theorem C9_pc_advance_witness :
    0x3E ∈ mappedOpcodes ∧
    ∃ cpu', Step
        { PC := 0xFFFF, SP := 0, R := { A := 0, B := 0, C := 0, D := 0, E := 0, H := 0, L := 0, F := 0 }
          MachineCycles := { m := 0, t := 0 }, LastInstrCycle := { m := 0, t := 0 }
          mmu := { mem := fun a => if a = 0xFFFF then 0x3E else 0x10, writes := [] } } =
          some cpu' ∧
      cpu'.PC = (0xFFFF + 1 + immediateBytes 0x3E) % 65536 :=
  ⟨by decide, C9_pc_advance _ 0x3E (by decide) (by decide)⟩

/-- C10: for every pre-state, whatever its LastInstrCycle, and every mapped
opcode, Step returns with LastInstrCycle = (0, 0); hence after any number of
successful Step calls from NewCPU the pair is (0, 0). -/
theorem C10_last_instr_cycle_zero (cpu : Z80) (op : Nat) (hop : op ∈ mappedOpcodes)
    (hfetch : cpu.mmu.ReadByte cpu.PC = op) :
    (∃ cpu', Step cpu = some cpu' ∧ cpu'.LastInstrCycle = ⟨0, 0⟩) ∧
    (∀ (m : MMU) (n : Nat) (c : Z80),
      runSteps n (NewCPU m) = some c → c.LastInstrCycle = ⟨0, 0⟩) := by
  constructor
  · obtain ⟨d, hd, _⟩ := Dispatch_mapped op (IncrementPC cpu 1) hop
    rw [← hfetch] at hd
    exact ⟨_, Step_of_Dispatch cpu d hd, rfl⟩
  · intro m n c h
    exact runSteps_invariant (fun c => c.LastInstrCycle = ⟨0, 0⟩)
      (fun c c' _ hs => Step_LastInstrCycle c c' hs) n (NewCPU m) c rfl h

/-- C10 at a pre-state whose LastInstrCycle is (7, 9), fetching 0x80. -/
theorem C10_last_instr_cycle_zero_witness :
    0x80 ∈ mappedOpcodes ∧
    ∃ cpu', Step
        { PC := 0, SP := 0, R := { A := 0, B := 0, C := 0, D := 0, E := 0, H := 0, L := 0, F := 0 }
          MachineCycles := { m := 0, t := 0 }, LastInstrCycle := { m := 7, t := 9 }
          mmu := memOfBytes [0x80] } = some cpu' ∧
      cpu'.LastInstrCycle = ⟨0, 0⟩ :=
  ⟨by decide, (C10_last_instr_cycle_zero _ 0x80 (by decide) (by decide)).1⟩


/-! ## Claims on the register-pair view and on reset -/

/-- On bytes the pair view `ToWord` is `256 * hob + lob`: the two operands of
the exclusive or share no bit. -/
theorem ToWord_eq (h l : Nat) (hh : h < 256) (hl : l < 256) :
    ToWord h l = 256 * h + l := by
  unfold ToWord
  have h1 : (h <<< 8) % 65536 = 2 ^ 8 * h := by
    rw [Nat.shiftLeft_eq]
    omega
  have hl8 : l < 2 ^ 8 := by omega
  rw [h1, show 256 * h + l = 2 ^ 8 * h + l by omega]
  apply Nat.eq_of_testBit_eq
  intro i
  rw [Nat.testBit_xor, Nat.testBit_mul_pow_two_add h hl8, Nat.testBit_mul_pow_two]
  by_cases hi : i < 8
  · simp [hi, Nat.not_le_of_lt hi]
  · have hle : 8 ≤ i := Nat.le_of_not_lt hi
    have hl0 : l.testBit i = false :=
      Nat.testBit_lt_two_pow (Nat.lt_of_lt_of_le hl8 (Nat.pow_le_pow_right (by decide) hle))
    simp [hi, hle, hl0]

/-- C12: for all bytes h and l, ToWord(h, l) = 256*h + l, its high byte
(value >> 8) is h and its low byte (value AND 0xFF) is l; and for every 16-bit
value w, ToWord(w >> 8, w AND 0xFF) = w. -/
theorem C12_ToWord_bijection (h l w : Nat) (hh : h < 256) (hl : l < 256)
    (hw : w < 65536) :
    (ToWord h l = 256 * h + l ∧ ToWord h l >>> 8 = h ∧ ToWord h l &&& 0xFF = l) ∧
    ToWord (w >>> 8) (w &&& 0xFF) = w := by
  have hmask : ∀ x : Nat, x &&& 0xFF = x % 256 := fun x =>
    Nat.and_pow_two_sub_one_eq_mod x 8
  constructor
  · rw [ToWord_eq h l hh hl, hmask, Nat.shiftRight_eq_div_pow]
    refine ⟨rfl, ?_, ?_⟩ <;> omega
  · have hhi : w >>> 8 < 256 := by
      rw [Nat.shiftRight_eq_div_pow]
      omega
    have hlo : w &&& 0xFF < 256 := by
      rw [hmask]
      omega
    rw [ToWord_eq _ _ hhi hlo, hmask, Nat.shiftRight_eq_div_pow]
    omega

/-- C12 at h = 0x12, l = 0x34 and at w = 0xBEEF. -/
theorem C12_ToWord_bijection_witness :
    0x12 < 256 ∧ 0x34 < 256 ∧ 0xBEEF < 65536 ∧
    (ToWord 0x12 0x34 = 256 * 0x12 + 0x34 ∧ ToWord 0x12 0x34 >>> 8 = 0x12 ∧
      ToWord 0x12 0x34 &&& 0xFF = 0x34) ∧
    ToWord (0xBEEF >>> 8) (0xBEEF &&& 0xFF) = 0xBEEF :=
  ⟨by decide, by decide, by decide,
    C12_ToWord_bijection 0x12 0x34 0xBEEF (by decide) (by decide) (by decide)⟩

/-- C13: for every processor state, after Reset the fields PC, SP, A, B, C, D,
E, H, L, F and both clock pairs are zero and the memory device is the one held
before; NewCPU(m) is this all-zero state holding m. -/
theorem C13_Reset_and_NewCPU_zero :
    (∀ cpu : Z80,
      Reset cpu =
        { PC := 0, SP := 0
          R := { A := 0, B := 0, C := 0, D := 0, E := 0, H := 0, L := 0, F := 0 }
          MachineCycles := { m := 0, t := 0 }
          LastInstrCycle := { m := 0, t := 0 }
          mmu := cpu.mmu }) ∧
    (∀ m : MMU,
      NewCPU m =
        { PC := 0, SP := 0
          R := { A := 0, B := 0, C := 0, D := 0, E := 0, H := 0, L := 0, F := 0 }
          MachineCycles := { m := 0, t := 0 }
          LastInstrCycle := { m := 0, t := 0 }
          mmu := m }) :=
  ⟨fun _ => rfl, fun _ => rfl⟩

/-! ## Costs, memory effects and flags of the routines -/

theorem Dispatch_mapped_cost (op : Nat) (cpu : Z80) (hop : op ∈ mappedOpcodes) :
    ∃ d, Dispatch op cpu = some d ∧ d.MachineCycles = cpu.MachineCycles ∧
      d.LastInstrCycle = ⟨(opcodeCost op).1, (opcodeCost op).2⟩ := by
  simp only [mappedOpcodes, List.mem_cons, List.mem_singleton, List.not_mem_nil,
    or_false] at hop
  rcases hop with
    rfl | rfl | rfl | rfl | rfl | rfl | rfl | rfl | rfl | rfl | rfl |
    rfl | rfl | rfl | rfl | rfl | rfl | rfl | rfl | rfl | rfl | rfl |
    rfl | rfl | rfl | rfl | rfl | rfl | rfl | rfl | rfl | rfl | rfl |
    rfl | rfl | rfl | rfl | rfl | rfl | rfl | rfl | rfl | rfl | rfl |
    rfl | rfl | rfl | rfl | rfl | rfl | rfl | rfl | rfl | rfl | rfl |
    rfl | rfl | rfl | rfl | rfl | rfl | rfl | rfl | rfl | rfl | rfl |
    rfl | rfl | rfl | rfl | rfl | rfl | rfl | rfl | rfl | rfl | rfl |
    rfl | rfl | rfl | rfl | rfl | rfl | rfl | rfl | rfl | rfl | rfl
  all_goals
    refine ⟨_, rfl, ?_, ?_⟩
    · simp [LDrn_frame, LDrr_frame, LDr_hl_frame, LDhl_r_frame, LDbc_r_frame, LDde_r_frame,
        LDnn_r_frame, LDhl_n_frame, LDr_bc_frame, LDr_de_frame, LDr_nn_frame,
        LDr_ffplusc_frame, LDffplusc_r_frame, AddA_r_frame, AddA_hl_frame, AddA_n_frame]
    · simp only [LDrn_frame, LDrr_frame, LDr_hl_frame, LDhl_r_frame, LDbc_r_frame,
        LDde_r_frame, LDnn_r_frame, LDhl_n_frame, LDr_bc_frame, LDr_de_frame, LDr_nn_frame,
        LDr_ffplusc_frame, LDffplusc_r_frame, AddA_r_frame, AddA_hl_frame, AddA_n_frame]
      decide

theorem Step_some_inv (cpu cpu' : Z80) (h : Step cpu = some cpu') :
    cpu.mmu.ReadByte cpu.PC ∈ mappedOpcodes ∧
    ∃ d, Dispatch (cpu.mmu.ReadByte cpu.PC) (IncrementPC cpu 1) = some d ∧
      cpu' =
        { d with
          MachineCycles :=
            { m := (d.MachineCycles.m + d.LastInstrCycle.m) % 65536
              t := (d.MachineCycles.t + d.LastInstrCycle.t) % 65536 }
          LastInstrCycle := { m := 0, t := 0 } } := by
  have hm : cpu.mmu.ReadByte cpu.PC ∈ mappedOpcodes := by
    by_contra hno
    have hn := (Step_eq_none_iff cpu).2 (Dispatch_unmapped _ _ hno)
    rw [hn] at h
    exact Option.noConfusion h
  obtain ⟨d, hd, _⟩ := Dispatch_mapped _ (IncrementPC cpu 1) hm
  refine ⟨hm, d, hd, ?_⟩
  rw [Step_of_Dispatch cpu d hd] at h
  exact (Option.some.inj h).symm

/-! ## Claims on the running total -/

/-- C11: for every mapped opcode and every pre-state, Step returns and has
added to MachineCycles the fixed cost of the opcode, modulo 65536 in each
counter; the cost is a function of the opcode alone: (1, 4) for LD r,r' and
ADD A,r; (2, 8) for LD r,n, LD r,(HL), LD (HL),r, LD A,(BC), LD A,(DE),
LD (BC),A, LD (DE),A, LD A,(C), LD (C),A, ADD A,(HL) and ADD A,n; (3, 12) for
LD (HL),n; (4, 16) for LD A,(nn) and LD (nn),A. -/
theorem C11_running_total_grows_by_cost (cpu : Z80) (op : Nat) (hop : op ∈ mappedOpcodes)
    (hfetch : cpu.mmu.ReadByte cpu.PC = op) :
    ∃ cpu', Step cpu = some cpu' ∧
      cpu'.MachineCycles.m = (cpu.MachineCycles.m + (opcodeCost op).1) % 65536 ∧
      cpu'.MachineCycles.t = (cpu.MachineCycles.t + (opcodeCost op).2) % 65536 := by
  obtain ⟨d, hd, hmc, hlc⟩ := Dispatch_mapped_cost op (IncrementPC cpu 1) hop
  rw [← hfetch] at hd
  refine ⟨_, Step_of_Dispatch cpu d hd, ?_, ?_⟩
  · show (d.MachineCycles.m + d.LastInstrCycle.m) % 65536 = _
    rw [hmc, hlc]
    rfl
  · show (d.MachineCycles.t + d.LastInstrCycle.t) % 65536 = _
    rw [hmc, hlc]
    rfl

/-- C11 at a running total of (0xFFFF, 0xFFFC), fetching 0xEA (LD (nn),A, cost
(4, 16)): the counters wrap to (3, 12). -/
theorem C11_running_total_grows_by_cost_witness :
    0xEA ∈ mappedOpcodes ∧
    ∃ cpu', Step
        { PC := 0, SP := 0
          R := { A := 0, B := 0, C := 0, D := 0, E := 0, H := 0, L := 0, F := 0 }
          MachineCycles := { m := 0xFFFF, t := 0xFFFC }
          LastInstrCycle := { m := 0, t := 0 }
          mmu := memOfBytes [0xEA, 0x00, 0xC0] } = some cpu' ∧
      cpu'.MachineCycles.m = (0xFFFF + (opcodeCost 0xEA).1) % 65536 ∧
      cpu'.MachineCycles.t = (0xFFFC + (opcodeCost 0xEA).2) % 65536 :=
  ⟨by decide, C11_running_total_grows_by_cost _ 0xEA (by decide) (by decide)⟩

theorem AddA_r_mmu (r : Reg) (cpu : Z80) : (AddA_r r cpu).mmu = cpu.mmu := by
  unfold AddA_r
  simp only [ResetFlags, Clock.Set]
  split_ifs <;> rfl

theorem AddA_hl_mmu (cpu : Z80) : (AddA_hl cpu).mmu = cpu.mmu := by
  unfold AddA_hl
  simp only [ResetFlags, Clock.Set]
  split_ifs <;> rfl

theorem AddA_n_mmu (cpu : Z80) : (AddA_n cpu).mmu = cpu.mmu := by
  unfold AddA_n
  simp only [IncrementPC, ResetFlags, Clock.Set]
  split_ifs <;> rfl

theorem AddA_r_F (r : Reg) (cpu : Z80) :
    (AddA_r r cpu).R.F = 0x00 ∨ (AddA_r r cpu).R.F = 0x40 ∨
      (AddA_r r cpu).R.F = 0x80 ∨ (AddA_r r cpu).R.F = 0xC0 := by
  unfold AddA_r
  simp only [ResetFlags, Clock.Set]
  split_ifs <;> simp

theorem AddA_hl_F (cpu : Z80) :
    (AddA_hl cpu).R.F = 0x00 ∨ (AddA_hl cpu).R.F = 0x40 ∨
      (AddA_hl cpu).R.F = 0x80 ∨ (AddA_hl cpu).R.F = 0xC0 := by
  unfold AddA_hl
  simp only [ResetFlags, Clock.Set]
  split_ifs <;> simp

theorem AddA_n_F (cpu : Z80) :
    (AddA_n cpu).R.F = 0x00 ∨ (AddA_n cpu).R.F = 0x40 ∨
      (AddA_n cpu).R.F = 0x80 ∨ (AddA_n cpu).R.F = 0xC0 := by
  unfold AddA_n
  simp only [IncrementPC, ResetFlags, Clock.Set]
  split_ifs <;> simp

theorem LDrn_mmu (r : Reg) (cpu : Z80) : (LDrn r cpu).mmu = cpu.mmu := rfl

theorem LDrn_F (r : Reg) (cpu : Z80) : (LDrn r cpu).R.F = cpu.R.F := by
  cases r <;> rfl

theorem LDr_hl_mmu (r : Reg) (cpu : Z80) : (LDr_hl r cpu).mmu = cpu.mmu := rfl

theorem LDr_hl_F (r : Reg) (cpu : Z80) : (LDr_hl r cpu).R.F = cpu.R.F := by
  cases r <;> rfl

theorem LDr_bc_mmu (r : Reg) (cpu : Z80) : (LDr_bc r cpu).mmu = cpu.mmu := rfl

theorem LDr_bc_F (r : Reg) (cpu : Z80) : (LDr_bc r cpu).R.F = cpu.R.F := by
  cases r <;> rfl

theorem LDr_de_mmu (r : Reg) (cpu : Z80) : (LDr_de r cpu).mmu = cpu.mmu := rfl

theorem LDr_de_F (r : Reg) (cpu : Z80) : (LDr_de r cpu).R.F = cpu.R.F := by
  cases r <;> rfl

theorem LDr_nn_mmu (r : Reg) (cpu : Z80) : (LDr_nn r cpu).mmu = cpu.mmu := rfl

theorem LDr_nn_F (r : Reg) (cpu : Z80) : (LDr_nn r cpu).R.F = cpu.R.F := by
  cases r <;> rfl

theorem LDr_ffplusc_mmu (r : Reg) (cpu : Z80) : (LDr_ffplusc r cpu).mmu = cpu.mmu := rfl

theorem LDr_ffplusc_F (r : Reg) (cpu : Z80) : (LDr_ffplusc r cpu).R.F = cpu.R.F := by
  cases r <;> rfl

theorem LDrr_mmu (r1 r2 : Reg) (cpu : Z80) : (LDrr r1 r2 cpu).mmu = cpu.mmu := rfl

theorem LDrr_F (r1 r2 : Reg) (cpu : Z80) : (LDrr r1 r2 cpu).R.F = cpu.R.F := by
  cases r1 <;> rfl

theorem LDhl_r_F (r : Reg) (cpu : Z80) : (LDhl_r r cpu).R.F = cpu.R.F := rfl

theorem LDbc_r_F (r : Reg) (cpu : Z80) : (LDbc_r r cpu).R.F = cpu.R.F := rfl

theorem LDde_r_F (r : Reg) (cpu : Z80) : (LDde_r r cpu).R.F = cpu.R.F := rfl

theorem LDnn_r_F (r : Reg) (cpu : Z80) : (LDnn_r r cpu).R.F = cpu.R.F := rfl

theorem LDffplusc_r_F (r : Reg) (cpu : Z80) : (LDffplusc_r r cpu).R.F = cpu.R.F := rfl

theorem LDhl_n_F (cpu : Z80) : (LDhl_n cpu).R.F = cpu.R.F := rfl

/-- A mapped opcode that is not a store leaves the memory device as it is. -/
theorem Dispatch_mapped_no_write (op : Nat) (cpu : Z80) (hop : op ∈ mappedOpcodes)
    (hns : op ∉ storeOpcodes) :
    ∃ d, Dispatch op cpu = some d ∧ d.mmu = cpu.mmu := by
  simp only [mappedOpcodes, List.mem_cons, List.mem_singleton, List.not_mem_nil,
    or_false] at hop
  rcases hop with
    rfl | rfl | rfl | rfl | rfl | rfl | rfl | rfl | rfl | rfl | rfl |
    rfl | rfl | rfl | rfl | rfl | rfl | rfl | rfl | rfl | rfl | rfl |
    rfl | rfl | rfl | rfl | rfl | rfl | rfl | rfl | rfl | rfl | rfl |
    rfl | rfl | rfl | rfl | rfl | rfl | rfl | rfl | rfl | rfl | rfl |
    rfl | rfl | rfl | rfl | rfl | rfl | rfl | rfl | rfl | rfl | rfl |
    rfl | rfl | rfl | rfl | rfl | rfl | rfl | rfl | rfl | rfl | rfl |
    rfl | rfl | rfl | rfl | rfl | rfl | rfl | rfl | rfl | rfl | rfl |
    rfl | rfl | rfl | rfl | rfl | rfl | rfl | rfl | rfl | rfl | rfl
  all_goals
    first
      | exact absurd (by decide) hns
      | exact ⟨_, rfl, by simp only [LDrn_mmu, LDr_hl_mmu, LDr_bc_mmu, LDr_de_mmu, LDr_nn_mmu, LDr_ffplusc_mmu,
        LDrr_mmu, AddA_r_mmu, AddA_hl_mmu, AddA_n_mmu]⟩

/-- A store opcode makes one `WriteByte` call. -/
theorem Dispatch_store_write (op : Nat) (cpu : Z80) (hs : op ∈ storeOpcodes) :
    ∃ d a v, Dispatch op cpu = some d ∧ d.mmu = cpu.mmu.WriteByte a v := by
  simp only [storeOpcodes, List.mem_cons, List.mem_singleton, List.not_mem_nil,
    or_false] at hs
  rcases hs with rfl | rfl | rfl | rfl | rfl | rfl | rfl | rfl | rfl | rfl | rfl | rfl
  all_goals exact ⟨_, _, _, rfl, rfl⟩

/-- What a mapped opcode does to `F`: a load leaves it as it is, an ADD leaves
one of 0x00, 0x40, 0x80, 0xC0. -/
theorem Dispatch_mapped_F (op : Nat) (cpu : Z80) (hop : op ∈ mappedOpcodes) :
    ∃ d, Dispatch op cpu = some d ∧
      (d.R.F = cpu.R.F ∨ d.R.F = 0x00 ∨ d.R.F = 0x40 ∨ d.R.F = 0x80 ∨ d.R.F = 0xC0) := by
  simp only [mappedOpcodes, List.mem_cons, List.mem_singleton, List.not_mem_nil,
    or_false] at hop
  rcases hop with
    rfl | rfl | rfl | rfl | rfl | rfl | rfl | rfl | rfl | rfl | rfl |
    rfl | rfl | rfl | rfl | rfl | rfl | rfl | rfl | rfl | rfl | rfl |
    rfl | rfl | rfl | rfl | rfl | rfl | rfl | rfl | rfl | rfl | rfl |
    rfl | rfl | rfl | rfl | rfl | rfl | rfl | rfl | rfl | rfl | rfl |
    rfl | rfl | rfl | rfl | rfl | rfl | rfl | rfl | rfl | rfl | rfl |
    rfl | rfl | rfl | rfl | rfl | rfl | rfl | rfl | rfl | rfl | rfl |
    rfl | rfl | rfl | rfl | rfl | rfl | rfl | rfl | rfl | rfl | rfl |
    rfl | rfl | rfl | rfl | rfl | rfl | rfl | rfl | rfl | rfl | rfl
  all_goals
    refine ⟨_, rfl, ?_⟩
    simp [LDrn_F, LDr_hl_F, LDr_bc_F, LDr_de_F, LDr_nn_F, LDr_ffplusc_F, LDrr_F, LDhl_r_F,
      LDbc_r_F, LDde_r_F, LDnn_r_F, LDffplusc_r_F, LDhl_n_F, AddA_r_F, AddA_hl_F, AddA_n_F]

theorem Registers.get_set_self (R : Registers) (r : Reg) (v : Nat) :
    (R.set r v).get r = v := by
  cases r <;> rfl

theorem Registers.get_set_other (R : Registers) (r r' : Reg) (v : Nat) (h : r' ≠ r) :
    (R.set r v).get r' = R.get r' := by
  cases r <;> cases r' <;> first | rfl | exact absurd rfl h

theorem Registers.set_F (R : Registers) (r : Reg) (v : Nat) : (R.set r v).F = R.F := by
  cases r <;> rfl

/-! ## Claims on the loads -/

/-- C14: for each LD r,n opcode (0x3E A, 0x06 B, 0x0E C, 0x16 D, 0x1E E, 0x26 H,
0x2E L) and every pre-state, Step returns with r holding the memory byte at the
address after the opcode, every other 8-bit register, F and SP as before, the
memory device untouched (no write), PC advanced by 2 and the running total
grown by (2m, 8t), PC and the counters being 16-bit. -/
theorem C14_ld_r_n (cpu : Z80) (op : Nat) (r : Reg) (hop : (op, r) ∈ ldrnTable)
    (hfetch : cpu.mmu.ReadByte cpu.PC = op) :
    ∃ cpu', Step cpu = some cpu' ∧
      cpu'.R.get r = cpu.mmu.ReadByte ((cpu.PC + 1) % 65536) ∧
      (∀ r', r' ≠ r → cpu'.R.get r' = cpu.R.get r') ∧
      cpu'.R.F = cpu.R.F ∧ cpu'.SP = cpu.SP ∧ cpu'.mmu = cpu.mmu ∧
      cpu'.PC = (cpu.PC + 2) % 65536 ∧
      cpu'.MachineCycles.m = (cpu.MachineCycles.m + 2) % 65536 ∧
      cpu'.MachineCycles.t = (cpu.MachineCycles.t + 8) % 65536 := by
  have key : Dispatch op (IncrementPC cpu 1) = some (LDrn r (IncrementPC cpu 1)) := by
    simp only [ldrnTable, List.mem_cons, List.mem_singleton, List.not_mem_nil, or_false,
      Prod.mk.injEq] at hop
    rcases hop with ⟨rfl, rfl⟩ | ⟨rfl, rfl⟩ | ⟨rfl, rfl⟩ | ⟨rfl, rfl⟩ | ⟨rfl, rfl⟩ |
      ⟨rfl, rfl⟩ | ⟨rfl, rfl⟩ <;> rfl
  rw [← hfetch] at key
  refine ⟨_, Step_of_Dispatch cpu _ key, ?_, ?_, ?_, rfl, rfl, ?_, rfl, rfl⟩
  · exact Registers.get_set_self _ r _
  · intro r' hr'
    exact Registers.get_set_other _ r r' _ hr'
  · exact Registers.set_F _ r _
  · show ((cpu.PC + 1) % 65536 + 1) % 65536 = (cpu.PC + 2) % 65536
    omega

/-- C14 at the input of the claim: A=0x05, F=0, bytes 0x3E 0x10 give A=0x10
with F still 0. -/
theorem C14_ld_r_n_witness :
    (0x3E, Reg.A) ∈ ldrnTable ∧
    ∃ cpu',
      Step (cpuAt { A := 0x05, B := 0, C := 0, D := 0, E := 0, H := 0, L := 0, F := 0 }
        [0x3E, 0x10]) = some cpu' ∧
      cpu'.R.A = 0x10 ∧ cpu'.R.F = 0 ∧ cpu'.PC = 2 ∧
      cpu'.MachineCycles.m = 2 ∧ cpu'.MachineCycles.t = 8 := by
  obtain ⟨c, hs, hA, _, hF, _, _, hPC, hm, ht⟩ :=
    C14_ld_r_n (cpuAt { A := 0x05, B := 0, C := 0, D := 0, E := 0, H := 0, L := 0, F := 0 }
      [0x3E, 0x10]) 0x3E Reg.A (by decide) (by decide)
  exact ⟨by decide, c, hs, hA, hF, hPC, hm, ht⟩

/-- C15: for each LD (HL),r opcode (0x70 B, 0x71 C, 0x72 D, 0x73 E, 0x74 H,
0x75 L, 0x77 A) and every pre-state, H and L being bytes, Step returns having
made exactly one memory write, WriteByte(256*H + L, r), with the pre-state
values of H, L and r, and leaves every register and F as before. -/
theorem C15_ld_hl_r (cpu : Z80) (op : Nat) (r : Reg) (hop : (op, r) ∈ ldhlrTable)
    (hfetch : cpu.mmu.ReadByte cpu.PC = op) (hH : cpu.R.H < 256) (hL : cpu.R.L < 256) :
    ∃ cpu', Step cpu = some cpu' ∧
      cpu'.mmu = cpu.mmu.WriteByte (256 * cpu.R.H + cpu.R.L) (cpu.R.get r) ∧
      cpu'.mmu.writes = cpu.mmu.writes ++ [(256 * cpu.R.H + cpu.R.L, cpu.R.get r)] ∧
      cpu'.R = cpu.R := by
  have key : Dispatch op (IncrementPC cpu 1) = some (LDhl_r r (IncrementPC cpu 1)) := by
    simp only [ldhlrTable, List.mem_cons, List.mem_singleton, List.not_mem_nil, or_false,
      Prod.mk.injEq] at hop
    rcases hop with ⟨rfl, rfl⟩ | ⟨rfl, rfl⟩ | ⟨rfl, rfl⟩ | ⟨rfl, rfl⟩ | ⟨rfl, rfl⟩ |
      ⟨rfl, rfl⟩ | ⟨rfl, rfl⟩ <;> rfl
  rw [← hfetch] at key
  have hw := ToWord_eq cpu.R.H cpu.R.L hH hL
  refine ⟨_, Step_of_Dispatch cpu _ key, ?_, ?_, rfl⟩
  · rw [← hw]
    rfl
  · rw [← hw]
    rfl

/-- C15 at the input of the claim: H=0x00, L=0x10, A=0x42, opcode 0x77 issues
WriteByte(0x0010, 0x42) and nothing else. -/
theorem C15_ld_hl_r_witness :
    (0x77, Reg.A) ∈ ldhlrTable ∧
    ∃ cpu',
      Step (cpuAt { A := 0x42, B := 0, C := 0, D := 0, E := 0, H := 0x00, L := 0x10, F := 0 }
        [0x77]) = some cpu' ∧
      cpu'.mmu.writes = [(0x0010, 0x42)] := by
  obtain ⟨c, hs, _, hw, _⟩ :=
    C15_ld_hl_r (cpuAt { A := 0x42, B := 0, C := 0, D := 0, E := 0, H := 0x00, L := 0x10, F := 0 }
      [0x77]) 0x77 Reg.A (by decide) (by decide) (by decide) (by decide)
  exact ⟨by decide, c, hs, hw⟩

/-- C16: for every opcode op in 0x40..0x7F except 0x76 and every pre-state,
Step returns and its effect on the registers and on the memory device is that
of the load destination <- source given by the encoding, destination entry
(op >> 3) AND 7 and source entry op AND 7 of [B, C, D, E, H, L, (HL), A], the
source read from the pre-state; F is as before. -/
theorem C16_switch_agrees_with_encoding (cpu : Z80) (op : Nat) (hlo : 0x40 ≤ op)
    (hhi : op ≤ 0x7F) (hne : op ≠ 0x76) (hfetch : cpu.mmu.ReadByte cpu.PC = op) :
    ∃ cpu', Step cpu = some cpu' ∧
      cpu'.R = (loadByEncoding op cpu).R ∧ cpu'.mmu = (loadByEncoding op cpu).mmu ∧
      cpu'.R.F = cpu.R.F := by
  have key : ∃ d, Dispatch op (IncrementPC cpu 1) = some d ∧
      d.R = (loadByEncoding op cpu).R ∧ d.mmu = (loadByEncoding op cpu).mmu ∧
      d.R.F = cpu.R.F := by
    interval_cases op <;> first | exact absurd rfl hne | exact ⟨_, rfl, rfl, rfl, rfl⟩
  obtain ⟨d, hd, hR, hM, hF⟩ := key
  rw [← hfetch] at hd
  exact ⟨_, Step_of_Dispatch cpu d hd, hR, hM, hF⟩

/-- C16 at opcode 0x47 (destination entry 0 = B, source entry 7 = A) with
A=0x42: B becomes 0x42. -/
theorem C16_switch_agrees_with_encoding_witness :
    0x40 ≤ 0x47 ∧ 0x47 ≤ 0x7F ∧ 0x47 ≠ 0x76 ∧
    ∃ cpu',
      Step (cpuAt { A := 0x42, B := 0, C := 0, D := 0, E := 0, H := 0, L := 0, F := 0 }
        [0x47]) = some cpu' ∧
      cpu'.R = { A := 0x42, B := 0x42, C := 0, D := 0, E := 0, H := 0, L := 0, F := 0 } := by
  obtain ⟨c, hs, hR, _, _⟩ :=
    C16_switch_agrees_with_encoding
      (cpuAt { A := 0x42, B := 0, C := 0, D := 0, E := 0, H := 0, L := 0, F := 0 } [0x47])
      0x47 (by decide) (by decide) (by decide) (by decide)
  exact ⟨by decide, by decide, by decide, c, hs, hR⟩

/-! ## Claims on flags, totals and memory over whole runs -/

/-- C17: ADD A,A (0x87) should leave the same A and F as ADD A,B (0x80) run
with B set to the value of A.  With A=0x80 both leave A=0x00, but 0x87 leaves
F=0x80 where 0x80 leaves F=0xC0; with A=0x60 both leave A=0xC0, but 0x87 leaves
F=0x40 where 0x80 leaves F=0x00: in AddA_r the test (oldA + *r) < oldA reads
the accumulator after it has been updated. -/
theorem C17_add_a_a_differs_from_add_a_b :
    (∃ c1 c2,
      Step (cpuAt { A := 0x80, B := 0, C := 0, D := 0, E := 0, H := 0, L := 0, F := 0 }
        [0x87]) = some c1 ∧
      Step (cpuAt { A := 0x80, B := 0x80, C := 0, D := 0, E := 0, H := 0, L := 0, F := 0 }
        [0x80]) = some c2 ∧
      c1.R.A = 0x00 ∧ c2.R.A = 0x00 ∧ c1.R.F = 0x80 ∧ c2.R.F = 0xC0) ∧
    (∃ c1 c2,
      Step (cpuAt { A := 0x60, B := 0, C := 0, D := 0, E := 0, H := 0, L := 0, F := 0 }
        [0x87]) = some c1 ∧
      Step (cpuAt { A := 0x60, B := 0x60, C := 0, D := 0, E := 0, H := 0, L := 0, F := 0 }
        [0x80]) = some c2 ∧
      c1.R.A = 0xC0 ∧ c2.R.A = 0xC0 ∧ c1.R.F = 0x40 ∧ c2.R.F = 0x00) := by
  refine ⟨⟨_, _, rfl, rfl, ?_, ?_, ?_, ?_⟩, ⟨_, _, rfl, rfl, ?_, ?_, ?_, ?_⟩⟩ <;> decide

/-- C18: in every state reached from Reset by any number of successful Step
calls, whatever the memory holds, the low nibble of F is zero. -/
theorem C18_flags_low_nibble_zero (n : Nat) (cpu cpu' : Z80)
    (hrun : runSteps n (Reset cpu) = some cpu') :
    cpu'.R.F &&& 0x0F = 0 := by
  refine runSteps_invariant (fun c => c.R.F &&& 0x0F = 0) ?_ n (Reset cpu) cpu'
    (Nat.zero_and 0x0F) hrun
  intro c c' hc hs
  obtain ⟨hm, d, hd, rfl⟩ := Step_some_inv c c' hs
  obtain ⟨d', hd', hF⟩ := Dispatch_mapped_F _ (IncrementPC c 1) hm
  rw [hd] at hd'
  obtain rfl := Option.some.inj hd'
  show d.R.F &&& 0x0F = 0
  rcases hF with h | h | h | h | h
  · rw [h]
    exact hc
  all_goals
    rw [h]
    decide

/-- C18 after two steps from Reset over the program 0x3E 0xFF 0x87
(LD A,0xFF; ADD A,A). -/
theorem C18_flags_low_nibble_zero_witness :
    ∃ cpu',
      runSteps 2
        (Reset (cpuAt { A := 9, B := 9, C := 9, D := 9, E := 9, H := 9, L := 9, F := 0xFF }
          [0x3E, 0xFF, 0x87])) = some cpu' ∧
      cpu'.R.F &&& 0x0F = 0 :=
  ⟨_, rfl, C18_flags_low_nibble_zero 2
    (cpuAt { A := 9, B := 9, C := 9, D := 9, E := 9, H := 9, L := 9, F := 0xFF }
      [0x3E, 0xFF, 0x87]) _ rfl⟩

/-- C19: in every state reached from Reset by any number of successful Step
calls, MachineCycles.t = (4 * MachineCycles.m) mod 65536, the two counters
being kept modulo 65536. -/
theorem C19_running_total_ratio (n : Nat) (cpu cpu' : Z80)
    (hrun : runSteps n (Reset cpu) = some cpu') :
    cpu'.MachineCycles.t = (4 * cpu'.MachineCycles.m) % 65536 := by
  refine runSteps_invariant (fun c => c.MachineCycles.t = (4 * c.MachineCycles.m) % 65536)
    ?_ n (Reset cpu) cpu' rfl hrun
  intro c c' hc hs
  obtain ⟨hm, d, hd, rfl⟩ := Step_some_inv c c' hs
  obtain ⟨d', hd', _, _, hmc, hcost⟩ := Dispatch_mapped _ (IncrementPC c 1) hm
  rw [hd] at hd'
  obtain rfl := Option.some.inj hd'
  show (d.MachineCycles.t + d.LastInstrCycle.t) % 65536 =
    (4 * ((d.MachineCycles.m + d.LastInstrCycle.m) % 65536)) % 65536
  have hc' : c.MachineCycles.t = (4 * c.MachineCycles.m) % 65536 := hc
  rw [hmc]
  show (c.MachineCycles.t + d.LastInstrCycle.t) % 65536 =
    (4 * ((c.MachineCycles.m + d.LastInstrCycle.m) % 65536)) % 65536
  rcases hcost with h | h | h | h <;> rw [h] <;> simp only <;> omega

/-- C19 after three steps from Reset over the program 0x3E 0xFF 0x87 0x47. -/
theorem C19_running_total_ratio_witness :
    ∃ cpu',
      runSteps 3
        (Reset (cpuAt { A := 0, B := 0, C := 0, D := 0, E := 0, H := 0, L := 0, F := 0 }
          [0x3E, 0xFF, 0x87, 0x47])) = some cpu' ∧
      cpu'.MachineCycles.t = (4 * cpu'.MachineCycles.m) % 65536 :=
  ⟨_, rfl, C19_running_total_ratio 3
    (cpuAt { A := 0, B := 0, C := 0, D := 0, E := 0, H := 0, L := 0, F := 0 }
      [0x3E, 0xFF, 0x87, 0x47]) _ rfl⟩

/-- C20: for every pre-state and every mapped opcode, Step returns with SP as
before; for an opcode other than the stores 0x70-0x75, 0x77, 0x02, 0x12, 0xEA,
0x36 and 0xE2 the memory device has received no WriteByte, and for each of
those stores it has received exactly one; and whenever Step returns, SP is as
before. -/
theorem C20_writes_only_for_stores (cpu : Z80) (op : Nat) (hop : op ∈ mappedOpcodes)
    (hfetch : cpu.mmu.ReadByte cpu.PC = op) :
    ∃ cpu', Step cpu = some cpu' ∧ cpu'.SP = cpu.SP ∧
      (op ∉ storeOpcodes → cpu'.mmu = cpu.mmu ∧ cpu'.mmu.writes = cpu.mmu.writes) ∧
      (op ∈ storeOpcodes → ∃ a v,
        cpu'.mmu = cpu.mmu.WriteByte a v ∧ cpu'.mmu.writes = cpu.mmu.writes ++ [(a, v)]) ∧
      (∀ c c' : Z80, Step c = some c' → c'.SP = c.SP) := by
  obtain ⟨d, hd, _, hSP, _⟩ := Dispatch_mapped op (IncrementPC cpu 1) hop
  have hd0 := hd
  rw [← hfetch] at hd
  refine ⟨_, Step_of_Dispatch cpu d hd, hSP, ?_, ?_, ?_⟩
  · intro hns
    obtain ⟨d', hd', hM⟩ := Dispatch_mapped_no_write op (IncrementPC cpu 1) hop hns
    rw [hd0] at hd'
    obtain rfl := Option.some.inj hd'
    have hM' : d.mmu = cpu.mmu := hM
    exact ⟨hM', by rw [hM']⟩
  · intro hs
    obtain ⟨d', a, v, hd', hM⟩ := Dispatch_store_write op (IncrementPC cpu 1) hs
    rw [hd0] at hd'
    obtain rfl := Option.some.inj hd'
    have hM' : d.mmu = cpu.mmu.WriteByte a v := hM
    exact ⟨a, v, hM', by rw [hM']; rfl⟩
  · intro c c' hs
    obtain ⟨hm, e, he, rfl⟩ := Step_some_inv c c' hs
    obtain ⟨e', he', _, hSP', _⟩ := Dispatch_mapped _ (IncrementPC c 1) hm
    rw [he] at he'
    obtain rfl := Option.some.inj he'
    exact hSP'

/-- C20 at opcode 0xE2 (LD (C),A) with C=0x44, A=0x42 and SP=0xFFFE: one write,
WriteByte(0xFF44, 0x42), and SP still 0xFFFE. -/
theorem C20_writes_only_for_stores_witness :
    0xE2 ∈ mappedOpcodes ∧
    ∃ cpu',
      Step
        { PC := 0, SP := 0xFFFE
          R := { A := 0x42, B := 0, C := 0x44, D := 0, E := 0, H := 0, L := 0, F := 0 }
          MachineCycles := { m := 0, t := 0 }, LastInstrCycle := { m := 0, t := 0 }
          mmu := memOfBytes [0xE2] } = some cpu' ∧
      cpu'.SP = 0xFFFE ∧ cpu'.mmu.writes = [(0xFF44, 0x42)] := by
  obtain ⟨c, hs, hSP, _, _, _⟩ :=
    C20_writes_only_for_stores
      { PC := 0, SP := 0xFFFE
        R := { A := 0x42, B := 0, C := 0x44, D := 0, E := 0, H := 0, L := 0, F := 0 }
        MachineCycles := { m := 0, t := 0 }, LastInstrCycle := { m := 0, t := 0 }
        mmu := memOfBytes [0xE2] } 0xE2 (by decide) (by decide)
  have hs' := hs
  rw [show Step
        { PC := 0, SP := 0xFFFE
          R := { A := 0x42, B := 0, C := 0x44, D := 0, E := 0, H := 0, L := 0, F := 0 }
          MachineCycles := { m := 0, t := 0 }, LastInstrCycle := { m := 0, t := 0 }
          mmu := memOfBytes [0xE2] } = some _ from rfl] at hs'
  obtain rfl := Option.some.inj hs'
  exact ⟨by decide, _, hs, hSP, rfl⟩

end Termboy
